import Mathlib

/-!
Verification of the `on-this-day` CLI (src/main.rs) against its
natural-language specification.

The program is a single linear pipeline: parse CLI arguments, build a URL
from today's date and an event-type category, perform one HTTP GET,
deserialize the JSON body into `OnThisDayResponse`, flatten the optional
category buckets into one list, select one event (oldest / newest / random)
and print it.

The embedding below translates that pipeline into pure Lean functions:
  * `Event`, `OnThisDayResponse`, `EventType`, `Args` mirror the Rust
    structs and enums of main.rs;
  * `collectEvents` mirrors the bucket-flattening block (main.rs lines
    113-118);
  * `min_by_key` / `max_by_key` mirror Rust's `Iterator::min_by_key` /
    `max_by_key` on the year-filtered iterator, including their documented
    tie behaviour (minimum: the first of equally minimal elements;
    maximum: the last of equally maximal elements);
  * `choose` mirrors `SliceRandom::choose` with the random draw supplied
    as an explicit natural number;
  * `run_main` mirrors the control flow of `main` after the HTTP send,
    with the network outcome supplied as an explicit `FetchOutcome`
    (transport failure, or a status code together with the decode outcome
    of the body);
  * `parse_args` / `run_program` mirror the clap-declared argument
    grammar of the `Args` struct (flags `-o` = `--oldest`, `-n` =
    `--newest`, `-t` = `--event-type <value>`, with `oldest` and `newest`
    declared mutually exclusive via `conflicts_with`).
-/

namespace OnThisDay

/-- One historical event: `struct Event { text: String, year: Option<i32> }`. -/
structure Event where
  text : String
  year : Option Int
deriving Repr, DecidableEq

/-- The decoded feed: `struct OnThisDayResponse` with five optional buckets. -/
structure OnThisDayResponse where
  selected : Option (List Event)
  births : Option (List Event)
  deaths : Option (List Event)
  holidays : Option (List Event)
  events : Option (List Event)
deriving Repr, DecidableEq

/-- The requested category: `enum EventType { All, Selected, Births, Deaths, Holidays, Events }`. -/
inductive EventType
  | all
  | selected
  | births
  | deaths
  | holidays
  | events
deriving Repr, DecidableEq

/-- The parsed CLI configuration: `struct Args { oldest: bool, newest: bool, event_type: EventType }`. -/
structure Args where
  oldest : Bool
  newest : Bool
  event_type : EventType
deriving Repr, DecidableEq

/-- The lower-cased `Display` rendering of an `EventType`
(`format!("{}", args.event_type).to_lowercase()`, main.rs line 75). -/
def eventTypeStr : EventType → String
  | .all => "all"
  | .selected => "selected"
  | .births => "births"
  | .deaths => "deaths"
  | .holidays => "holidays"
  | .events => "events"

/-- Bucket flattening, main.rs lines 113-118: append every present bucket,
in declaration order `selected, births, deaths, holidays, events`.  The
requested category is *not* an input: the source appends all five optional
buckets unconditionally. -/
def collectEvents (api_data : OnThisDayResponse) : List Event :=
  api_data.selected.getD [] ++ api_data.births.getD [] ++ api_data.deaths.getD []
    ++ api_data.holidays.getD [] ++ api_data.events.getD []

/-- Rust's derived `Ord` on `Option<i32>` restricted to `≤`:
`None` is below everything, `Some` values compare by the payload. -/
def optLe : Option Int → Option Int → Bool
  | none, _ => true
  | some _, none => false
  | some a, some b => decide (a ≤ b)

/-- `Iterator::min_by_key` over a list, with key into `Option Int`:
returns the element with the minimal key; of equally minimal elements the
first is returned (the documented behaviour of Rust's `min_by_key`).
The head is kept on a tie with the minimum of the tail. -/
def min_by_key (key : Event → Option Int) : List Event → Option Event
  | [] => none
  | e :: es =>
    match min_by_key key es with
    | none => some e
    | some m => if optLe (key e) (key m) then some e else some m

/-- `Iterator::max_by_key` over a list, with key into `Option Int`:
returns the element with the maximal key; of equally maximal elements the
last is returned (the documented behaviour of Rust's `max_by_key`).
The tail's maximum is kept on a tie with the head. -/
def max_by_key (key : Event → Option Int) : List Event → Option Event
  | [] => none
  | e :: es =>
    match max_by_key key es with
    | none => some e
    | some m => if optLe (key e) (key m) then some m else some e

/-- `SliceRandom::choose`: `None` on an empty slice, otherwise the element
at a uniformly drawn index.  The randomness is supplied as a natural
number `rand`; the drawn index is `rand % length`, which ranges over
exactly the valid indices. -/
def choose (l : List Event) (rand : Nat) : Option Event :=
  if l.isEmpty then none else l[rand % l.length]?

/-- The selection block of `main`, main.rs lines 128-144: with `--oldest`
the minimum-year event among those with a year, with `--newest` the
maximum-year event among those with a year, otherwise a random element of
the whole list. -/
def select_event (args : Args) (events_to_process : List Event) (rand : Nat) : Option Event :=
  if args.oldest then
    min_by_key (fun e => e.year) (events_to_process.filter (fun e => e.year.isSome))
  else if args.newest then
    max_by_key (fun e => e.year) (events_to_process.filter (fun e => e.year.isSome))
  else
    choose events_to_process rand

/-- The decode outcome of `response.json().await`: a `DecodeError` on
malformed JSON or schema mismatch, or the decoded response. -/
inductive DecodeOutcome
  | decodeError
  | ok (data : OnThisDayResponse)

/-- The outcome of the single HTTP send: a transport failure (DNS,
connection, TLS), or a response carrying a status code and a body whose
decode outcome is given. -/
inductive FetchOutcome
  | transportError
  | response (status : Nat) (body : DecodeOutcome)

/-- `reqwest::StatusCode::is_success`: status in `200..=299`. -/
def statusIsSuccess (status : Nat) : Bool :=
  decide (200 ≤ status ∧ status < 300)

/-- A single-quote character, used to build the fetch notice verbatim. -/
def quoteChar : String := String.singleton (Char.ofNat 39)

/-- Rust `{:02}` formatting of a number: zero-padded to two digits. -/
def pad2 (n : Nat) : String :=
  if n < 10 then "0" ++ toString n else toString n

/-- The fetch-in-progress notice printed to stdout (main.rs lines 81-84). -/
def fetchingMsg (t : EventType) (month day : Nat) : String :=
  "Fetching event(s) of type " ++ quoteChar ++ eventTypeStr t ++ quoteChar
    ++ " for today (" ++ pad2 month ++ "/" ++ pad2 day ++ ")..."

/-- The stderr diagnostic for a non-success HTTP status (main.rs lines
100-103).  Rust renders `response.status()` as the numeric code followed
by the canonical reason phrase; the embedding keeps the numeric code,
which is the part the specification speaks about. -/
def statusErrMsg (status : Nat) : String :=
  "Error: Failed to fetch data from Wikipedia API. Status: " ++ toString status

/-- The stdout notice for an empty flattened list (main.rs line 122). -/
def noEventsMsg : String :=
  "No historical events found for today with the selected type."

/-- The stderr diagnostic when the oldest/newest filter excluded every
record (main.rs line 157). -/
def noSelectionMsg : String :=
  "Could not select an event from the available data."

/-- The header line printed before a selected event (main.rs line 148). -/
def headerMsg (month day : Nat) : String :=
  "\n--- On This Day: " ++ pad2 month ++ "/" ++ pad2 day ++ " ---"

/-- The line printed for the selected event (main.rs lines 149-154):
with a year, `Year {year}: {text}`; without, just the text. -/
def eventMsg (e : Event) : String :=
  match e.year with
  | some y => "\nYear " ++ toString y ++ ": " ++ e.text
  | none => "\n" ++ e.text

/-- The observable outcome of one run: the process exit code, the lines
printed to stdout and stderr, and whether the HTTP request was issued. -/
structure RunResult where
  exitCode : Nat
  stdout : List String
  stderr : List String
  fetched : Bool
deriving Repr, DecidableEq

/-- The body of `main` after argument parsing, main.rs lines 70-160, with
the date and the network outcome as explicit inputs.  A transport failure
or decode failure propagates through `?`, so `main` returns `Err` and the
process exits with code 1; a non-success HTTP status prints a diagnostic
to stderr and returns `Ok(())` (exit code 0). -/
def run_main (args : Args) (month day : Nat) (fetch : FetchOutcome) (rand : Nat) : RunResult :=
  let intro := fetchingMsg args.event_type month day
  match fetch with
  | .transportError => ⟨1, [intro], [], true⟩
  | .response status body =>
    if statusIsSuccess status = false then
      ⟨0, [intro], [statusErrMsg status], true⟩
    else
      match body with
      | .decodeError => ⟨1, [intro], [], true⟩
      | .ok api_data =>
        let events_to_process := collectEvents api_data
        if events_to_process.isEmpty then
          ⟨0, [intro, noEventsMsg], [], true⟩
        else
          match select_event args events_to_process rand with
          | some e => ⟨0, [intro, headerMsg month day, eventMsg e], [], true⟩
          | none => ⟨0, [intro], [noSelectionMsg], true⟩

/-- Category-value parsing of clap's `ValueEnum` for `EventType`: the six
lower-cased variant names. -/
def parseCategory (s : String) : Option EventType :=
  if s = "all" then some .all
  else if s = "selected" then some .selected
  else if s = "births" then some .births
  else if s = "deaths" then some .deaths
  else if s = "holidays" then some .holidays
  else if s = "events" then some .events
  else none

/-- The clap-declared argument grammar of `Args` (main.rs lines 49-61):
`-o` or `--oldest` and `-n` or `--newest` set the corresponding flag,
`-t` and `--event-type` take a category value; anything else is a usage
error. -/
def parseArgsFrom : List String → Args → Option Args
  | [], acc => some acc
  | a :: rest, acc =>
    if a = "--oldest" ∨ a = "-o" then
      parseArgsFrom rest { acc with oldest := true }
    else if a = "--newest" ∨ a = "-n" then
      parseArgsFrom rest { acc with newest := true }
    else if a = "--event-type" ∨ a = "-t" then
      match rest with
      | [] => none
      | v :: rest2 =>
        match parseCategory v with
        | some t => parseArgsFrom rest2 { acc with event_type := t }
        | none => none
    else none

/-- `Args::parse()`: fold the argument words over the defaults
(`oldest = false`, `newest = false`, `event_type = All`), then enforce the
`conflicts_with` declaration between `oldest` and `newest`: if both flags
were supplied, clap reports a usage error. -/
def parse_args (argv : List String) : Option Args :=
  match parseArgsFrom argv ⟨false, false, .all⟩ with
  | none => none
  | some args => if args.oldest && args.newest then none else some args

/-- The whole process: clap parsing, then `main`.  On a usage error clap
prints to stderr and exits with code 2 before any network activity
(`fetched = false`); otherwise the pipeline of `run_main` runs. -/
def run_program (argv : List String) (month day : Nat) (fetch : FetchOutcome) (rand : Nat) :
    RunResult :=
  match parse_args argv with
  | none => ⟨2, [], ["error: invalid usage"], false⟩
  | some args => run_main args month day fetch rand

/-- The response bucket corresponding to a specific category (the bucket
the URL path segment of that category makes the API serve).  `all` has no
single bucket. -/
def bucket : EventType → OnThisDayResponse → Option (List Event)
  | .all, _ => none
  | .selected, r => r.selected
  | .births, r => r.births
  | .deaths, r => r.deaths
  | .holidays, r => r.holidays
  | .events, r => r.events

/-- Every bucket other than the requested category's is absent from the
response — the shape the category-specific API endpoint returns. -/
def otherBucketsAbsent (c : EventType) (r : OnThisDayResponse) : Prop :=
  (EventType.selected ≠ c → r.selected = none) ∧
  (EventType.births ≠ c → r.births = none) ∧
  (EventType.deaths ≠ c → r.deaths = none) ∧
  (EventType.holidays ≠ c → r.holidays = none) ∧
  (EventType.events ≠ c → r.events = none)

instance (c : EventType) (r : OnThisDayResponse) : Decidable (otherBucketsAbsent c r) := by
  unfold otherBucketsAbsent
  infer_instance

/-! ### Order lemmas for the `Option Int` key -/

theorem optLe_refl (a : Option Int) : optLe a a = true := by
  cases a with
  | none => rfl
  | some x => simp [optLe]

theorem optLe_total (a b : Option Int) : optLe a b = true ∨ optLe b a = true := by
  cases a <;> cases b <;> simp [optLe]
  omega

theorem optLe_trans {a b c : Option Int} (h1 : optLe a b = true) (h2 : optLe b c = true) :
    optLe a c = true := by
  cases a <;> cases b <;> cases c <;> simp [optLe] at *
  omega

theorem optLe_of_not_le {a b : Option Int} (h : optLe a b = false) : optLe b a = true := by
  rcases optLe_total a b with h1 | h1
  · rw [h1] at h; cases h
  · exact h1

/-! ### `min_by_key`: first minimum -/

theorem min_by_key_ne_none {key : Event → Option Int} (e : Event) (es : List Event) :
    min_by_key key (e :: es) ≠ none := by
  intro hcon
  simp only [min_by_key] at hcon
  cases hm : min_by_key key es with
  | none => simp only [hm] at hcon; cases hcon
  | some m2 =>
    simp only [hm] at hcon
    by_cases hle : optLe (key e) (key m2) = true
    · rw [if_pos hle] at hcon; cases hcon
    · rw [if_neg hle] at hcon; cases hcon

theorem min_by_key_none_iff {key : Event → Option Int} {l : List Event} :
    min_by_key key l = none ↔ l = [] := by
  cases l with
  | nil => simp [min_by_key]
  | cons e es => simp [min_by_key_ne_none e es]

theorem min_by_key_mem {key : Event → Option Int} (l : List Event) :
    ∀ m, min_by_key key l = some m → m ∈ l := by
  induction l with
  | nil => intro m h; cases h
  | cons e es ih =>
    intro m h
    simp only [min_by_key] at h
    cases hm : min_by_key key es with
    | none =>
      simp only [hm] at h
      cases h
      exact List.mem_cons_self _ _
    | some m2 =>
      simp only [hm] at h
      by_cases hle : optLe (key e) (key m2) = true
      · rw [if_pos hle] at h
        cases h
        exact List.mem_cons_self _ _
      · rw [if_neg hle] at h
        cases h
        exact List.mem_cons_of_mem _ (ih m hm)

theorem min_by_key_le {key : Event → Option Int} (l : List Event) :
    ∀ m, min_by_key key l = some m → ∀ x ∈ l, optLe (key m) (key x) = true := by
  induction l with
  | nil => intro m h; cases h
  | cons e es ih =>
    intro m h x hx
    simp only [min_by_key] at h
    cases hm : min_by_key key es with
    | none =>
      simp only [hm] at h
      cases h
      have hes : es = [] := min_by_key_none_iff.mp hm
      subst hes
      rcases List.mem_singleton.mp hx with rfl
      exact optLe_refl _
    | some m2 =>
      simp only [hm] at h
      by_cases hle : optLe (key e) (key m2) = true
      · rw [if_pos hle] at h
        cases h
        rcases List.mem_cons.mp hx with rfl | hx2
        · exact optLe_refl _
        · exact optLe_trans hle (ih m2 hm x hx2)
      · rw [if_neg hle] at h
        cases h
        rcases List.mem_cons.mp hx with rfl | hx2
        · exact optLe_of_not_le (Bool.eq_false_iff.mpr hle)
        · exact ih m hm x hx2

theorem min_by_key_first {key : Event → Option Int} (l : List Event) :
    ∀ m, min_by_key key l = some m →
      ∃ l1 l2, l = l1 ++ m :: l2 ∧ ∀ x ∈ l1, optLe (key x) (key m) = false := by
  induction l with
  | nil => intro m h; cases h
  | cons e es ih =>
    intro m h
    simp only [min_by_key] at h
    cases hm : min_by_key key es with
    | none =>
      simp only [hm] at h
      cases h
      exact ⟨[], es, rfl, by simp⟩
    | some m2 =>
      simp only [hm] at h
      by_cases hle : optLe (key e) (key m2) = true
      · rw [if_pos hle] at h
        cases h
        exact ⟨[], es, rfl, by simp⟩
      · rw [if_neg hle] at h
        cases h
        obtain ⟨l1, l2, heq, hall⟩ := ih m hm
        refine ⟨e :: l1, l2, by simp [heq], ?_⟩
        intro x hx
        rcases List.mem_cons.mp hx with rfl | hx2
        · exact Bool.eq_false_iff.mpr hle
        · exact hall x hx2

/-! ### `max_by_key`: last maximum -/

theorem max_by_key_ne_none {key : Event → Option Int} (e : Event) (es : List Event) :
    max_by_key key (e :: es) ≠ none := by
  intro hcon
  simp only [max_by_key] at hcon
  cases hm : max_by_key key es with
  | none => simp only [hm] at hcon; cases hcon
  | some m2 =>
    simp only [hm] at hcon
    by_cases hle : optLe (key e) (key m2) = true
    · rw [if_pos hle] at hcon; cases hcon
    · rw [if_neg hle] at hcon; cases hcon

theorem max_by_key_none_iff {key : Event → Option Int} {l : List Event} :
    max_by_key key l = none ↔ l = [] := by
  cases l with
  | nil => simp [max_by_key]
  | cons e es => simp [max_by_key_ne_none e es]

theorem max_by_key_mem {key : Event → Option Int} (l : List Event) :
    ∀ m, max_by_key key l = some m → m ∈ l := by
  induction l with
  | nil => intro m h; cases h
  | cons e es ih =>
    intro m h
    simp only [max_by_key] at h
    cases hm : max_by_key key es with
    | none =>
      simp only [hm] at h
      cases h
      exact List.mem_cons_self _ _
    | some m2 =>
      simp only [hm] at h
      by_cases hle : optLe (key e) (key m2) = true
      · rw [if_pos hle] at h
        cases h
        exact List.mem_cons_of_mem _ (ih m hm)
      · rw [if_neg hle] at h
        cases h
        exact List.mem_cons_self _ _

theorem max_by_key_ge {key : Event → Option Int} (l : List Event) :
    ∀ m, max_by_key key l = some m → ∀ x ∈ l, optLe (key x) (key m) = true := by
  induction l with
  | nil => intro m h; cases h
  | cons e es ih =>
    intro m h x hx
    simp only [max_by_key] at h
    cases hm : max_by_key key es with
    | none =>
      simp only [hm] at h
      cases h
      have hes : es = [] := max_by_key_none_iff.mp hm
      subst hes
      rcases List.mem_singleton.mp hx with rfl
      exact optLe_refl _
    | some m2 =>
      simp only [hm] at h
      by_cases hle : optLe (key e) (key m2) = true
      · rw [if_pos hle] at h
        cases h
        rcases List.mem_cons.mp hx with rfl | hx2
        · exact hle
        · exact ih m hm x hx2
      · rw [if_neg hle] at h
        cases h
        rcases List.mem_cons.mp hx with rfl | hx2
        · exact optLe_refl _
        · exact optLe_trans (ih m2 hm x hx2) (optLe_of_not_le (Bool.eq_false_iff.mpr hle))

theorem max_by_key_last {key : Event → Option Int} (l : List Event) :
    ∀ m, max_by_key key l = some m →
      ∃ l1 l2, l = l1 ++ m :: l2 ∧ ∀ x ∈ l2, optLe (key m) (key x) = false := by
  induction l with
  | nil => intro m h; cases h
  | cons e es ih =>
    intro m h
    simp only [max_by_key] at h
    cases hm : max_by_key key es with
    | none =>
      simp only [hm] at h
      cases h
      have hes : es = [] := max_by_key_none_iff.mp hm
      subst hes
      exact ⟨[], [], rfl, by simp⟩
    | some m2 =>
      simp only [hm] at h
      by_cases hle : optLe (key e) (key m2) = true
      · rw [if_pos hle] at h
        cases h
        obtain ⟨l1, l2, heq, hall⟩ := ih m hm
        exact ⟨e :: l1, l2, by simp [heq], hall⟩
      · rw [if_neg hle] at h
        cases h
        refine ⟨[], es, rfl, ?_⟩
        intro x hx
        cases hq : optLe (key e) (key x) with
        | false => rfl
        | true =>
          exact absurd (optLe_trans hq (max_by_key_ge es m2 hm x hx)) hle

/-! ### Bridge lemmas for the selector -/

theorem optLe_some_some {a b : Int} : optLe (some a) (some b) = true ↔ a ≤ b := by
  simp [optLe]

theorem select_event_oldest (c : EventType) (l : List Event) (r : Nat) :
    select_event ⟨true, false, c⟩ l r
      = min_by_key (fun e => e.year) (l.filter (fun e => e.year.isSome)) := rfl

theorem select_event_newest (c : EventType) (l : List Event) (r : Nat) :
    select_event ⟨false, true, c⟩ l r
      = max_by_key (fun e => e.year) (l.filter (fun e => e.year.isSome)) := rfl

theorem select_event_random (c : EventType) (l : List Event) (r : Nat) :
    select_event ⟨false, false, c⟩ l r = choose l r := rfl

theorem filter_year_ne_nil {l : List Event} (h : ∃ e ∈ l, e.year.isSome = true) :
    l.filter (fun e => e.year.isSome) ≠ [] := by
  obtain ⟨e, he, hy⟩ := h
  intro hcon
  exact List.filter_eq_nil_iff.mp hcon e he hy

theorem choose_mem_of_ne_nil {l : List Event} (rand : Nat) (h : l ≠ []) :
    ∃ (e : Event), choose l rand = some e ∧ e ∈ l := by
  have hlen : 0 < l.length := List.length_pos.mpr h
  have hidx : rand % l.length < l.length := Nat.mod_lt _ hlen
  have hemp : l.isEmpty = false := by
    cases l with
    | nil => cases h rfl
    | cons a as => rfl
  refine ⟨l[rand % l.length], ?_, List.getElem_mem hidx⟩
  simp [choose, hemp, List.getElem?_eq_getElem hidx]

/-! ### The claims -/

/-- C1, counterexample: the claim says that for a specific (non-all)
requested category, flattening keeps only that category's bucket.  The
flattening block of main.rs (lines 113-118) consults no category: on the
payload `births = [A(1900)], holidays = [B]` the flattened list is
`[A, B]`, not only the holidays bucket `[B]`. -/
theorem c1_flatten_ignores_category_counterexample :
    collectEvents ⟨none, some [⟨"A", some 1900⟩], none, some [⟨"B", none⟩], none⟩
        = [⟨"A", some 1900⟩, ⟨"B", none⟩] ∧
    collectEvents ⟨none, some [⟨"A", some 1900⟩], none, some [⟨"B", none⟩], none⟩
        ≠ [⟨"B", none⟩] := by
  exact ⟨rfl, by decide⟩

/-- C1, amended: the flattening step concatenates every present bucket
regardless of the requested category; when every bucket other than the
requested (non-all) category's is absent — the shape the category-specific
endpoint returns — the flattened list is exactly that bucket's records in
the API's original order. -/
theorem c1_flatten_specific_category (c : EventType) (r : OnThisDayResponse)
    (hc : c ≠ EventType.all) (habs : otherBucketsAbsent c r) :
    collectEvents r = (bucket c r).getD [] := by
  obtain ⟨r1, r2, r3, r4, r5⟩ := r
  obtain ⟨h1, h2, h3, h4, h5⟩ := habs
  cases c with
  | all => exact absurd rfl hc
  | selected =>
    rw [show r2 = none from h2 (by decide), show r3 = none from h3 (by decide),
      show r4 = none from h4 (by decide), show r5 = none from h5 (by decide)]
    simp [collectEvents, bucket]
  | births =>
    rw [show r1 = none from h1 (by decide), show r3 = none from h3 (by decide),
      show r4 = none from h4 (by decide), show r5 = none from h5 (by decide)]
    simp [collectEvents, bucket]
  | deaths =>
    rw [show r1 = none from h1 (by decide), show r2 = none from h2 (by decide),
      show r4 = none from h4 (by decide), show r5 = none from h5 (by decide)]
    simp [collectEvents, bucket]
  | holidays =>
    rw [show r1 = none from h1 (by decide), show r2 = none from h2 (by decide),
      show r3 = none from h3 (by decide), show r5 = none from h5 (by decide)]
    simp [collectEvents, bucket]
  | events =>
    rw [show r1 = none from h1 (by decide), show r2 = none from h2 (by decide),
      show r3 = none from h3 (by decide), show r4 = none from h4 (by decide)]
    simp [collectEvents, bucket]

/-- C1, witness: the amended statement at category `holidays` with only
the holidays bucket present. -/
theorem c1_flatten_specific_category_witness :
    collectEvents ⟨none, none, none, some [⟨"B", none⟩], none⟩
      = (bucket EventType.holidays ⟨none, none, none, some [⟨"B", none⟩], none⟩).getD [] :=
  c1_flatten_specific_category EventType.holidays
    ⟨none, none, none, some [⟨"B", none⟩], none⟩ (by decide) (by decide)

/-- C6: flattening is the concatenation of the buckets in the fixed order
`selected, births, deaths, holidays, events`, each bucket's internal order
preserved and absent buckets treated as empty; in particular the payload
`births = [A(1900)], holidays = [B]` flattens to `[A, B]`. -/
theorem c6_flatten_fixed_order (ls lb ld lh le2 : List Event) :
    collectEvents ⟨some ls, some lb, some ld, some lh, some le2⟩
        = ls ++ lb ++ ld ++ lh ++ le2 ∧
    collectEvents ⟨none, some [⟨"A", some 1900⟩], none, some [⟨"B", none⟩], none⟩
        = [⟨"A", some 1900⟩, ⟨"B", none⟩] :=
  ⟨rfl, rfl⟩

/-- C4: a non-2xx HTTP status makes the run print a stderr diagnostic
carrying the numeric status code, print nothing further to stdout beyond
the fetch notice, and end with exit status 0; a transport failure ends the
run with a non-zero exit status. -/
theorem c4_http_status_asymmetry (args : Args) (month day status rand : Nat)
    (body : DecodeOutcome) (h : ¬(200 ≤ status ∧ status < 300)) :
    (run_main args month day (.response status body) rand).exitCode = 0 ∧
    (run_main args month day (.response status body) rand).stderr = [statusErrMsg status] ∧
    (run_main args month day (.response status body) rand).stdout
        = [fetchingMsg args.event_type month day] ∧
    (run_main args month day FetchOutcome.transportError rand).exitCode ≠ 0 := by
  have hs : statusIsSuccess status = false := by
    simp only [statusIsSuccess, decide_eq_false_iff_not]
    exact h
  refine ⟨?_, ?_, ?_, ?_⟩ <;> simp [run_main, hs]

/-- C4, witness: a simulated HTTP 403 response. -/
theorem c4_http_status_asymmetry_witness :
    (run_main ⟨false, false, EventType.all⟩ 10 12 (.response 403 .decodeError) 0).exitCode = 0 ∧
    (run_main ⟨false, false, EventType.all⟩ 10 12 (.response 403 .decodeError) 0).stderr
        = [statusErrMsg 403] ∧
    (run_main ⟨false, false, EventType.all⟩ 10 12 (.response 403 .decodeError) 0).stdout
        = [fetchingMsg EventType.all 10 12] ∧
    (run_main ⟨false, false, EventType.all⟩ 10 12 FetchOutcome.transportError 0).exitCode ≠ 0 :=
  c4_http_status_asymmetry ⟨false, false, EventType.all⟩ 10 12 403 0 .decodeError (by omega)

/-- C8: a malformed body or schema mismatch (the decode step fails) on a
successful HTTP status aborts the run with a non-zero exit status, with
nothing printed past the fetch notice. -/
theorem c8_decode_error_fatal (args : Args) (month day status rand : Nat)
    (h : 200 ≤ status ∧ status < 300) :
    (run_main args month day (.response status .decodeError) rand).exitCode ≠ 0 ∧
    (run_main args month day (.response status .decodeError) rand).stdout
        = [fetchingMsg args.event_type month day] := by
  have hs : statusIsSuccess status = true := by
    simp only [statusIsSuccess, decide_eq_true_eq]
    exact h
  refine ⟨?_, ?_⟩ <;> simp [run_main, hs]

/-- C8, witness: a malformed body behind an HTTP 200. -/
theorem c8_decode_error_fatal_witness :
    (run_main ⟨false, false, EventType.all⟩ 10 12 (.response 200 .decodeError) 0).exitCode ≠ 0 ∧
    (run_main ⟨false, false, EventType.all⟩ 10 12 (.response 200 .decodeError) 0).stdout
        = [fetchingMsg EventType.all 10 12] :=
  c8_decode_error_fatal ⟨false, false, EventType.all⟩ 10 12 200 0 (by omega)

/-- C9: when the flattened list is empty — as for the empty payload whose
buckets are all absent — the run prints the no-events notice to stdout and
ends with exit status 0, whatever the requested category and flags. -/
theorem c9_empty_list_no_events (api_data : OnThisDayResponse) (args : Args)
    (month day rand : Nat) (h : collectEvents api_data = []) :
    (run_main args month day (.response 200 (.ok api_data)) rand).exitCode = 0 ∧
    (run_main args month day (.response 200 (.ok api_data)) rand).stdout
        = [fetchingMsg args.event_type month day, noEventsMsg] ∧
    collectEvents ⟨none, none, none, none, none⟩ = [] := by
  have hs : statusIsSuccess 200 = true := rfl
  refine ⟨?_, ?_, rfl⟩ <;> simp [run_main, hs, h]

/-- C9, witness: the empty payload at category `all`. -/
theorem c9_empty_list_no_events_witness :
    (run_main ⟨false, false, EventType.all⟩ 10 12
        (.response 200 (.ok ⟨none, none, none, none, none⟩)) 0).exitCode = 0 ∧
    (run_main ⟨false, false, EventType.all⟩ 10 12
        (.response 200 (.ok ⟨none, none, none, none, none⟩)) 0).stdout
        = [fetchingMsg EventType.all 10 12, noEventsMsg] ∧
    collectEvents ⟨none, none, none, none, none⟩ = [] :=
  c9_empty_list_no_events ⟨none, none, none, none, none⟩ ⟨false, false, EventType.all⟩ 10 12 0 rfl

/-- C10: with neither flag set and a non-empty flattened list, the random
selection yields exactly one record, that record is an element of the
flattened list, and the no-selection fallback branch is not taken (no
stderr output, exit status 0). -/
theorem c10_random_selects_member (api_data : OnThisDayResponse) (c : EventType)
    (month day rand : Nat) (h : collectEvents api_data ≠ []) :
    (∃ (e : Event), select_event ⟨false, false, c⟩ (collectEvents api_data) rand = some e
        ∧ e ∈ collectEvents api_data) ∧
    (run_main ⟨false, false, c⟩ month day (.response 200 (.ok api_data)) rand).stderr = [] ∧
    (run_main ⟨false, false, c⟩ month day (.response 200 (.ok api_data)) rand).exitCode = 0 := by
  obtain ⟨e, hch, hmem⟩ := choose_mem_of_ne_nil rand h
  have hsel : select_event ⟨false, false, c⟩ (collectEvents api_data) rand = some e := hch
  have hs : statusIsSuccess 200 = true := rfl
  have hemp : (collectEvents api_data).isEmpty = false := by
    cases hl : collectEvents api_data with
    | nil => exact absurd hl h
    | cons a as => rfl
  refine ⟨⟨e, hsel, hmem⟩, ?_, ?_⟩ <;> simp [run_main, hs, hemp, hsel]

/-- C10, witness: a one-bucket payload with a single record. -/
theorem c10_random_selects_member_witness :
    (∃ (e : Event), select_event ⟨false, false, EventType.all⟩
        (collectEvents ⟨none, some [⟨"A", some 1900⟩], none, none, none⟩) 0 = some e
        ∧ e ∈ collectEvents ⟨none, some [⟨"A", some 1900⟩], none, none, none⟩) ∧
    (run_main ⟨false, false, EventType.all⟩ 10 12
        (.response 200 (.ok ⟨none, some [⟨"A", some 1900⟩], none, none, none⟩)) 0).stderr = [] ∧
    (run_main ⟨false, false, EventType.all⟩ 10 12
        (.response 200 (.ok ⟨none, some [⟨"A", some 1900⟩], none, none, none⟩)) 0).exitCode = 0 :=
  c10_random_selects_member ⟨none, some [⟨"A", some 1900⟩], none, none, none⟩
    EventType.all 10 12 0 (by decide)

/-- C5: when no record of the flattened list has a year, both the oldest
and the newest rule yield no selection, and the run reports the
no-selection diagnostic on stderr and ends with exit status 0. -/
theorem c5_all_yearless_no_selection (api_data : OnThisDayResponse) (c : EventType)
    (month day r1 r2 : Nat)
    (hall : ∀ e ∈ collectEvents api_data, e.year = none)
    (hne : collectEvents api_data ≠ []) :
    select_event ⟨true, false, c⟩ (collectEvents api_data) r1 = none ∧
    select_event ⟨false, true, c⟩ (collectEvents api_data) r2 = none ∧
    (run_main ⟨true, false, c⟩ month day (.response 200 (.ok api_data)) r1).exitCode = 0 ∧
    (run_main ⟨true, false, c⟩ month day (.response 200 (.ok api_data)) r1).stderr
        = [noSelectionMsg] ∧
    (run_main ⟨false, true, c⟩ month day (.response 200 (.ok api_data)) r2).exitCode = 0 ∧
    (run_main ⟨false, true, c⟩ month day (.response 200 (.ok api_data)) r2).stderr
        = [noSelectionMsg] := by
  have hfilter : (collectEvents api_data).filter (fun e => e.year.isSome) = [] := by
    rw [List.filter_eq_nil_iff]
    intro e he
    simp [hall e he]
  have h1 : select_event ⟨true, false, c⟩ (collectEvents api_data) r1 = none := by
    rw [select_event_oldest, hfilter]
    rfl
  have h2 : select_event ⟨false, true, c⟩ (collectEvents api_data) r2 = none := by
    rw [select_event_newest, hfilter]
    rfl
  have hs : statusIsSuccess 200 = true := rfl
  have hemp : (collectEvents api_data).isEmpty = false := by
    cases hl : collectEvents api_data with
    | nil => exact absurd hl hne
    | cons a as => rfl
  refine ⟨h1, h2, ?_, ?_, ?_, ?_⟩ <;> simp [run_main, hs, hemp, h1, h2]

/-- C5, witness: a non-empty holidays-only payload with no years. -/
theorem c5_all_yearless_no_selection_witness :
    select_event ⟨true, false, EventType.all⟩
        (collectEvents ⟨none, none, none, some [⟨"B", none⟩], none⟩) 0 = none ∧
    select_event ⟨false, true, EventType.all⟩
        (collectEvents ⟨none, none, none, some [⟨"B", none⟩], none⟩) 0 = none ∧
    (run_main ⟨true, false, EventType.all⟩ 10 12
        (.response 200 (.ok ⟨none, none, none, some [⟨"B", none⟩], none⟩)) 0).exitCode = 0 ∧
    (run_main ⟨true, false, EventType.all⟩ 10 12
        (.response 200 (.ok ⟨none, none, none, some [⟨"B", none⟩], none⟩)) 0).stderr
        = [noSelectionMsg] ∧
    (run_main ⟨false, true, EventType.all⟩ 10 12
        (.response 200 (.ok ⟨none, none, none, some [⟨"B", none⟩], none⟩)) 0).exitCode = 0 ∧
    (run_main ⟨false, true, EventType.all⟩ 10 12
        (.response 200 (.ok ⟨none, none, none, some [⟨"B", none⟩], none⟩)) 0).stderr
        = [noSelectionMsg] :=
  c5_all_yearless_no_selection ⟨none, none, none, some [⟨"B", none⟩], none⟩
    EventType.all 10 12 0 0 (by decide) (by decide)

/-- C3: on a list with at least one record having a year, the oldest rule
returns a record with a year that is ≤ every defined year, the newest rule
one with a year ≥ every defined year; in both cases the returned record
itself has a defined year, so a yearless record is never returned and
never enters the comparison. -/
theorem c3_oldest_newest_bounds (l : List Event) (c : EventType) (r1 r2 : Nat)
    (h : ∃ e ∈ l, e.year.isSome = true) :
    (∃ (e : Event) (ym : Int), select_event ⟨true, false, c⟩ l r1 = some e ∧ e ∈ l ∧ e.year = some ym ∧
      ∀ x ∈ l, ∀ y, x.year = some y → ym ≤ y) ∧
    (∃ (e : Event) (ym : Int), select_event ⟨false, true, c⟩ l r2 = some e ∧ e ∈ l ∧ e.year = some ym ∧
      ∀ x ∈ l, ∀ y, x.year = some y → y ≤ ym) := by
  have hfl : l.filter (fun e => e.year.isSome) ≠ [] := filter_year_ne_nil h
  constructor
  · cases hmin : min_by_key (fun e => e.year) (l.filter (fun e => e.year.isSome)) with
    | none => exact absurd (min_by_key_none_iff.mp hmin) hfl
    | some m =>
      have hmemf := min_by_key_mem _ _ hmin
      obtain ⟨hmem, hys⟩ := List.mem_filter.mp hmemf
      obtain ⟨ym, hy⟩ := Option.isSome_iff_exists.mp hys
      refine ⟨m, ym, by rw [select_event_oldest, hmin], hmem, hy, ?_⟩
      intro x hx y hxy
      have hxf : x ∈ l.filter (fun e => e.year.isSome) :=
        List.mem_filter.mpr ⟨hx, by simp [hxy]⟩
      have := min_by_key_le _ _ hmin x hxf
      rw [hy, hxy] at this
      exact optLe_some_some.mp this
  · cases hmax : max_by_key (fun e => e.year) (l.filter (fun e => e.year.isSome)) with
    | none => exact absurd (max_by_key_none_iff.mp hmax) hfl
    | some m =>
      have hmemf := max_by_key_mem _ _ hmax
      obtain ⟨hmem, hys⟩ := List.mem_filter.mp hmemf
      obtain ⟨ym, hy⟩ := Option.isSome_iff_exists.mp hys
      refine ⟨m, ym, by rw [select_event_newest, hmax], hmem, hy, ?_⟩
      intro x hx y hxy
      have hxf : x ∈ l.filter (fun e => e.year.isSome) :=
        List.mem_filter.mpr ⟨hx, by simp [hxy]⟩
      have := max_by_key_ge _ _ hmax x hxf
      rw [hy, hxy] at this
      exact optLe_some_some.mp this

/-- C3, witness: a list with a yearless record, year 7 and year 3. -/
theorem c3_oldest_newest_bounds_witness :
    (∃ (e : Event) (ym : Int), select_event ⟨true, false, EventType.all⟩
        [⟨"N", none⟩, ⟨"A", some 7⟩, ⟨"B", some 3⟩] 0 = some e ∧
      e ∈ [⟨"N", none⟩, ⟨"A", some 7⟩, ⟨"B", some 3⟩] ∧ e.year = some ym ∧
      ∀ x ∈ ([⟨"N", none⟩, ⟨"A", some 7⟩, ⟨"B", some 3⟩] : List Event),
        ∀ y, x.year = some y → ym ≤ y) ∧
    (∃ (e : Event) (ym : Int), select_event ⟨false, true, EventType.all⟩
        [⟨"N", none⟩, ⟨"A", some 7⟩, ⟨"B", some 3⟩] 0 = some e ∧
      e ∈ [⟨"N", none⟩, ⟨"A", some 7⟩, ⟨"B", some 3⟩] ∧ e.year = some ym ∧
      ∀ x ∈ ([⟨"N", none⟩, ⟨"A", some 7⟩, ⟨"B", some 3⟩] : List Event),
        ∀ y, x.year = some y → y ≤ ym) :=
  c3_oldest_newest_bounds [⟨"N", none⟩, ⟨"A", some 7⟩, ⟨"B", some 3⟩]
    EventType.all 0 0 ⟨⟨"A", some 7⟩, by decide, rfl⟩

/-- C2, counterexample: on two records tied at the maximum year, the
newest rule returns the second (Rust's `max_by_key` keeps the last of
equally maximal elements), while the oldest rule on the same list returns
the first — so the claimed first-occurrence tie-break, "the same as
`selectOldest`", does not hold for `selectNewest`. -/
theorem c2_newest_tie_counterexample :
    select_event ⟨false, true, EventType.all⟩ [⟨"A", some 5⟩, ⟨"B", some 5⟩] 0
        = some ⟨"B", some 5⟩ ∧
    select_event ⟨true, false, EventType.all⟩ [⟨"A", some 5⟩, ⟨"B", some 5⟩] 0
        = some ⟨"A", some 5⟩ ∧
    (Event.mk "B" (some 5)) ≠ (Event.mk "A" (some 5)) :=
  ⟨rfl, rfl, by decide⟩

/-- C2, amended: on a flattened list with two or more records having a
defined year, the newest rule returns a record whose year is the maximum
defined year; among records tied at that maximum it returns the one
occurring *last* in the flattened order (the filtered list below preserves
that order), not the first as with `selectOldest`. -/
theorem c2_newest_max_year_last_tie (l : List Event) (c : EventType) (r : Nat)
    (h2 : 2 ≤ (l.filter (fun e => e.year.isSome)).length) :
    ∃ (e : Event) (ym : Int), select_event ⟨false, true, c⟩ l r = some e ∧ e ∈ l ∧ e.year = some ym ∧
      (∀ x ∈ l, ∀ y, x.year = some y → y ≤ ym) ∧
      ∃ l1 l2, l.filter (fun ev => ev.year.isSome) = l1 ++ e :: l2 ∧
        ∀ x ∈ l2, ∀ y, x.year = some y → y < ym := by
  have hfl : l.filter (fun e => e.year.isSome) ≠ [] := by
    intro hcon
    rw [hcon] at h2
    simp at h2
  cases hmax : max_by_key (fun e => e.year) (l.filter (fun e => e.year.isSome)) with
  | none => exact absurd (max_by_key_none_iff.mp hmax) hfl
  | some m =>
    have hmemf := max_by_key_mem _ _ hmax
    obtain ⟨hmem, hys⟩ := List.mem_filter.mp hmemf
    obtain ⟨ym, hy⟩ := Option.isSome_iff_exists.mp hys
    refine ⟨m, ym, by rw [select_event_newest, hmax], hmem, hy, ?_, ?_⟩
    · intro x hx y hxy
      have hxf : x ∈ l.filter (fun e => e.year.isSome) :=
        List.mem_filter.mpr ⟨hx, by simp [hxy]⟩
      have := max_by_key_ge _ _ hmax x hxf
      rw [hy, hxy] at this
      exact optLe_some_some.mp this
    · obtain ⟨l1, l2, heq, hlast⟩ := max_by_key_last _ _ hmax
      refine ⟨l1, l2, heq, ?_⟩
      intro x hx y hxy
      have := hlast x hx
      rw [hy, hxy] at this
      refine not_le.mp ?_
      intro hle
      rw [optLe_some_some.mpr hle] at this
      cases this

/-- C2, witness: the amended statement on the tied list `[A(5), B(5)]`. -/
theorem c2_newest_max_year_last_tie_witness :
    ∃ (e : Event) (ym : Int), select_event ⟨false, true, EventType.all⟩ [⟨"A", some 5⟩, ⟨"B", some 5⟩] 0
        = some e ∧
      e ∈ [⟨"A", some 5⟩, ⟨"B", some 5⟩] ∧ e.year = some ym ∧
      (∀ x ∈ ([⟨"A", some 5⟩, ⟨"B", some 5⟩] : List Event), ∀ y, x.year = some y → y ≤ ym) ∧
      ∃ l1 l2, List.filter (fun ev => ev.year.isSome) [⟨"A", some 5⟩, ⟨"B", some 5⟩]
          = l1 ++ e :: l2 ∧
        ∀ x ∈ l2, ∀ y, x.year = some y → y < ym :=
  c2_newest_max_year_last_tie [⟨"A", some 5⟩, ⟨"B", some 5⟩] EventType.all 0 (by decide)

/-- C7: supplying both `--oldest` and `--newest` makes the run fail with a
non-zero exit status before any network activity, and every successfully
parsed configuration has `oldest` and `newest` not both true. -/
theorem c7_conflicting_flags_rejected :
    (∀ (month day : Nat) (fetch : FetchOutcome) (rand : Nat),
      (run_program ["--oldest", "--newest"] month day fetch rand).exitCode ≠ 0 ∧
      (run_program ["--oldest", "--newest"] month day fetch rand).fetched = false) ∧
    (∀ (argv : List String) (args : Args), parse_args argv = some args →
      ¬(args.oldest = true ∧ args.newest = true)) := by
  constructor
  · intro month day fetch rand
    constructor
    · have h2 : (run_program ["--oldest", "--newest"] month day fetch rand).exitCode = 2 := rfl
      rw [h2]
      decide
    · rfl
  · intro argv args h
    unfold parse_args at h
    cases hp : parseArgsFrom argv ⟨false, false, .all⟩ with
    | none =>
      simp only [hp] at h
      cases h
    | some a =>
      simp only [hp] at h
      by_cases hb : (a.oldest && a.newest) = true
      · rw [if_pos hb] at h
        cases h
      · rw [if_neg hb] at h
        cases h
        simp only [Bool.and_eq_true] at hb
        exact hb

/-- C7, witness: the conflicting command line at concrete inputs, and the
invariant at the configuration parsed from `--oldest` alone. -/
theorem c7_conflicting_flags_rejected_witness :
    (run_program ["--oldest", "--newest"] 10 12 FetchOutcome.transportError 0).exitCode ≠ 0 ∧
    ¬((⟨true, false, EventType.all⟩ : Args).oldest = true ∧
      (⟨true, false, EventType.all⟩ : Args).newest = true) :=
  ⟨(c7_conflicting_flags_rejected.1 10 12 FetchOutcome.transportError 0).1,
   c7_conflicting_flags_rejected.2 ["--oldest"] ⟨true, false, EventType.all⟩ rfl⟩

end OnThisDay
